import Mathlib

/-!
Shallow embedding of the Postfix attribute-list wire encoder
(`src/postfix/src/util/attr_print.c`), the growable string array
(`src/postfix/src/util/argv.c`) and the fast-flush client helper
(`src/postfix/src/global/flush_clnt.c`).

Byte strings are modelled as `List Nat` (each element one byte).
A C `char *` argument is a NUL-terminated string: reading it through
`strlen` yields the prefix before the first 0 byte (`cstr` below).
-/

/-- Modelled from the spec: `vstream.h` is not under `src/`; the transport is a
buffered byte stream with an I/O-failure sentinel.  `written` is the trace of
bytes the encoder attempts to write; `error` is the stream's sticky write-error
flag, which the encoder never modifies (it only reports it at the end). -/
structure VStream where
  written : List Nat
  error : Bool
deriving DecidableEq

/-- Modelled from the spec: the transport's I/O-failure sentinel
(`VSTREAM_EOF`). -/
def VSTREAM_EOF : Int := -1

/-- `VSTREAM_PUTC(c, fp)`: append one byte to the write trace. -/
def vstream_putc (c : Nat) (fp : VStream) : VStream :=
  { fp with written := fp.written ++ [c] }

/-- `vstream_fputs(s, fp)`: append a byte string to the write trace. -/
def vstream_fputs (s : List Nat) (fp : VStream) : VStream :=
  { fp with written := fp.written ++ s }

/-- `vstream_ferror(fp)`: 0 when the stream has no write error, the
I/O-failure sentinel otherwise. -/
def vstream_ferror (fp : VStream) : Int :=
  if fp.error then VSTREAM_EOF else 0

/-- The bytes of a C string: everything before the first NUL byte. -/
def cstr (s : List Nat) : List Nat :=
  s.takeWhile (fun c => c != 0)

/-- `strlen`: length of a C string. -/
def strlen (s : List Nat) : Nat :=
  (cstr s).length

/-- Modelled from the spec: `base64_code.c` is not under `src/`.  Standard
base64 value-to-character table (A-Z, a-z, 0-9, plus, slash), as ASCII codes. -/
def b64char (i : Nat) : Nat :=
  if i < 26 then 65 + i
  else if i < 52 then 97 + (i - 26)
  else if i < 62 then 48 + (i - 52)
  else if i = 62 then 43
  else 47

/-- Modelled from the spec: `base64_encode` encodes an arbitrary byte sequence
into a transport-safe ASCII token (standard base64 with padding); the token
contains no newline, no colon and no NUL. -/
def base64_encode : List Nat → List Nat
  | [] => []
  | [a] => [b64char (a / 4), b64char (a % 4 * 16), 61, 61]
  | [a, b] => [b64char (a / 4), b64char (a % 4 * 16 + b / 16), b64char (b % 16 * 4), 61]
  | a :: b :: c :: rest =>
      b64char (a / 4) :: b64char (a % 4 * 16 + b / 16) ::
      b64char (b % 16 * 4 + c / 64) :: b64char (c % 64) :: base64_encode rest

/-- Fuel-driven core of the decimal rendering; the fuel always suffices when
it exceeds the number being rendered. -/
def decimalAsciiCore : Nat → Nat → List Nat
  | _, 0 => []
  | n, fuel + 1 =>
      if n < 10 then [48 + n]
      else decimalAsciiCore (n / 10) fuel ++ [48 + n % 10]

/-- The decimal ASCII rendering of an unsigned integer, as produced by
`vstring_sprintf(plain, "%u", num)`: no sign, no leading zeros, and `"0"`
for zero. -/
def decimalAscii (n : Nat) : List Nat :=
  decimalAsciiCore n (n + 1)

/-- Modelled from the spec: `attr.h` is not under `src/`; the caller-visible
flag set is NONE and MORE, so MORE is the only defined flag bit. -/
def ATTR_FLAG_NONE : Nat := 0

/-- Modelled from the spec: the MORE flag bit. -/
def ATTR_FLAG_MORE : Nat := 1

/-- Modelled from the spec: the mask of all defined flag bits. -/
def ATTR_FLAG_ALL : Nat := 1

/-- One type-tagged entry of the variadic argument list of `attr_print`:
Num, Str, Hash (table), or an unrecognized type code distinct from all of
Num/Str/Hash/End.  The End sentinel is the end of the list. -/
inductive AttrOp where
  | Num (name : List Nat) (val : Nat)
  | Str (name : List Nat) (val : List Nat)
  | Hash (table : List (List Nat × List Nat))
  | Other (code : Int)
deriving DecidableEq

/-- One `msg_info` diagnostic record emitted when `msg_verbose` is set. -/
inductive LogEntry where
  | num (name : List Nat) (val : Nat)
  | str (name : List Nat) (val : List Nat)
  | hash (key : List Nat) (val : List Nat)
deriving DecidableEq

deriving instance DecidableEq for Except

/-- `attr_print_str(fp, str, len)`: base64-encode the first `len` bytes and
write the token to the stream. -/
def attr_print_str (fp : VStream) (str : List Nat) (len : Nat) : VStream :=
  vstream_fputs (base64_encode (str.take len)) fp

/-- `attr_print_num(fp, num)`: format the number as unsigned decimal ASCII
and send it through `attr_print_str`. -/
def attr_print_num (fp : VStream) (num : Nat) : VStream :=
  attr_print_str fp (decimalAscii num) (decimalAscii num).length

/-- The `ATTR_TYPE_HASH` loop body of `attr_vprint`: for each table entry in
iteration order, write base64(key), the colon, base64(value), optionally log,
and write a newline separator when a next entry exists. -/
def printHashEntries (verbose : Bool) (fp : VStream) :
    List (List Nat × List Nat) → VStream × List LogEntry
  | [] => (fp, [])
  | (k, v) :: rest =>
      let fp1 := attr_print_str fp k (strlen k)
      let fp2 := vstream_putc 58 fp1
      let fp3 := attr_print_str fp2 v (strlen v)
      let lg := if verbose then [LogEntry.hash k v] else []
      let fp4 := if rest = [] then fp3 else vstream_putc 10 fp3
      let r := printHashEntries verbose fp4 rest
      (r.1, lg ++ r.2)

/-- The main `while` loop of `attr_vprint`: iterate over the (type, name,
value) triples until the End sentinel, producing output on the fly; an
unrecognized type code is a panic (modelled as `Except.error`).  Each
attribute line ends with the newline written after the `switch`. -/
def attr_vprint_loop (verbose : Bool) (fp : VStream) :
    List AttrOp → Except String (VStream × List LogEntry)
  | [] => Except.ok (fp, [])
  | AttrOp.Num name v :: rest =>
      let fp1 := attr_print_str fp name (strlen name)
      let fp2 := vstream_putc 58 fp1
      let fp3 := attr_print_num fp2 v
      let lg := if verbose then [LogEntry.num name v] else []
      match attr_vprint_loop verbose (vstream_putc 10 fp3) rest with
      | Except.error m => Except.error m
      | Except.ok (fp4, lg2) => Except.ok (fp4, lg ++ lg2)
  | AttrOp.Str name v :: rest =>
      let fp1 := attr_print_str fp name (strlen name)
      let fp2 := vstream_putc 58 fp1
      let fp3 := attr_print_str fp2 v (strlen v)
      let lg := if verbose then [LogEntry.str name v] else []
      match attr_vprint_loop verbose (vstream_putc 10 fp3) rest with
      | Except.error m => Except.error m
      | Except.ok (fp4, lg2) => Except.ok (fp4, lg ++ lg2)
  | AttrOp.Hash t :: rest =>
      let r := printHashEntries verbose fp t
      match attr_vprint_loop verbose (vstream_putc 10 r.1) rest with
      | Except.error m => Except.error m
      | Except.ok (fp2, lg2) => Except.ok (fp2, r.2 ++ lg2)
  | AttrOp.Other _ :: _ => Except.error "attr_print: unknown type code"

/-- `attr_vprint(fp, flags, ap)`: sanity-check the flags (panic on undefined
bits, modelled as `Except.error`), run the attribute loop, append the
blank-line record terminator unless MORE is set, and return
`vstream_ferror(fp)`. -/
def attr_vprint (verbose : Bool) (fp : VStream) (flags : Nat) (ops : List AttrOp) :
    Except String (VStream × List LogEntry × Int) :=
  if flags &&& ATTR_FLAG_ALL ≠ flags then
    Except.error "attr_print: bad flags"
  else
    match attr_vprint_loop verbose fp ops with
    | Except.error m => Except.error m
    | Except.ok (fp1, lg) =>
        let fp2 := if flags &&& ATTR_FLAG_MORE = 0 then vstream_putc 10 fp1 else fp1
        Except.ok (fp2, lg, vstream_ferror fp2)

/-- Wire denotation of one table, matching the hash loop: entries in
iteration order, separated (not terminated) by newlines. -/
def hashWire : List (List Nat × List Nat) → List Nat
  | [] => []
  | (k, v) :: rest =>
      base64_encode (cstr k) ++ 58 :: base64_encode (cstr v)
        ++ (if rest = [] then [] else [10]) ++ hashWire rest

/-- Wire denotation of one attribute entry, including the line terminator. -/
def entryWire : AttrOp → List Nat
  | AttrOp.Num name v => base64_encode (cstr name) ++ 58 :: base64_encode (decimalAscii v) ++ [10]
  | AttrOp.Str name v => base64_encode (cstr name) ++ 58 :: base64_encode (cstr v) ++ [10]
  | AttrOp.Hash t => hashWire t ++ [10]
  | AttrOp.Other _ => []

/-- Wire denotation of an attribute list (without the record terminator). -/
def wireList : List AttrOp → List Nat
  | [] => []
  | op :: rest => entryWire op ++ wireList rest

/-- Diagnostic records of one entry. -/
def entryLog : AttrOp → List LogEntry
  | AttrOp.Num name v => [LogEntry.num name v]
  | AttrOp.Str name v => [LogEntry.str name v]
  | AttrOp.Hash t => t.map (fun p => LogEntry.hash p.1 p.2)
  | AttrOp.Other _ => []

/-- Diagnostic records of an attribute list at a given verbosity. -/
def logList (verbose : Bool) : List AttrOp → List LogEntry
  | [] => []
  | op :: rest => (if verbose then entryLog op else []) ++ logList verbose rest

/-- `true` when the entry's type tag is one of Num/Str/Hash. -/
def AttrOp.isKnown : AttrOp → Bool
  | AttrOp.Other _ => false
  | _ => true

/-- `true` when every type tag in the list is recognized. -/
def opsKnown (ops : List AttrOp) : Bool :=
  ops.all AttrOp.isKnown

/-- One slot of the `char **` array of an ARGV: uninitialized memory, the
null pointer, or a pointer to an owned string. -/
inductive Cell where
  | undef
  | null
  | str (s : List Nat)
deriving DecidableEq

/-- The ARGV structure of `argv.c`: capacity `len`, used count `argc`, and the
underlying array of `len + 1` pointer slots. -/
structure ARGV where
  len : Nat
  argc : Nat
  argv : List Cell
deriving DecidableEq

/-- `mystrdup(s)`: copy a NUL-terminated string. -/
def mystrdup (s : List Nat) : List Nat :=
  cstr s

/-- Modelled from the spec: `mymalloc.h` is not under `src/`; `mystrndup(s, n)`
copies at most `n` bytes of a NUL-terminated string. -/
def mystrndup (s : List Nat) (n : Nat) : List Nat :=
  (cstr s).take n

/-- `argv_alloc(len)`: an empty string array of capacity at least 2, with
`len + 1` pointer slots of which slot 0 is set to the null sentinel. -/
def argv_alloc (len : Nat) : ARGV :=
  let l := if len < 2 then 2 else len
  { len := l, argc := 0, argv := Cell.null :: List.replicate l Cell.undef }

/-- `argv_extend(argvp)`: double the capacity and reallocate the array to the
new capacity plus one slots; the old slots are preserved and the fresh memory
is uninitialized. -/
def argv_extend (a : ARGV) : ARGV :=
  { len := a.len * 2,
    argc := a.argc,
    argv := a.argv ++ List.replicate (a.len * 2 + 1 - a.argv.length) Cell.undef }

/-- The body of the `argv_add` loop for one argument: extend when
`ARGV_SPACE_LEFT` is exhausted, then store a copy of the argument at index
`argc` and increment `argc`. -/
def argv_add_one (a : ARGV) (arg : List Nat) : ARGV :=
  let a1 := if (a.len : Int) - a.argc - 1 ≤ 0 then argv_extend a else a
  { a1 with argv := a1.argv.set a1.argc (Cell.str (mystrdup arg)), argc := a1.argc + 1 }

/-- `argv_add(argvp, args..., ARGV_END)`: append copies of the arguments,
then null-terminate the array at index `argc`. -/
def argv_add (a : ARGV) (args : List (List Nat)) : ARGV :=
  let a1 := args.foldl argv_add_one a
  { a1 with argv := a1.argv.set a1.argc Cell.null }

/-- The body of the `argv_addn` loop for one (string, length) pair: a
negative length is a panic (modelled as `Except.error`); otherwise extend
when full and store a length-bounded copy. -/
def argv_addn_one (a : ARGV) (arg : List Nat) (n : Int) : Except String ARGV :=
  if n < 0 then Except.error "argv_addn: bad string length"
  else
    let a1 := if (a.len : Int) - a.argc - 1 ≤ 0 then argv_extend a else a
    Except.ok
      { a1 with
        argv := a1.argv.set a1.argc (Cell.str (mystrndup arg n.toNat)),
        argc := a1.argc + 1 }

/-- `argv_addn(argvp, arg, arg_len, ..., ARGV_END)`: like `argv_add` with an
explicit length per string; panics on a negative length. -/
def argv_addn (a : ARGV) (pairs : List (List Nat × Int)) : Except String ARGV :=
  match pairs.foldlM (fun acc p => argv_addn_one acc p.1 p.2) a with
  | Except.error m => Except.error m
  | Except.ok a1 => Except.ok { a1 with argv := a1.argv.set a1.argc Cell.null }

/-- The invariant of the growable string array: the used count is strictly
below the capacity, the array has capacity-plus-one slots, and the slot at
index `argc` holds the null sentinel. -/
def argvInv (a : ARGV) : Prop :=
  a.argc < a.len ∧ a.argv.length = a.len + 1 ∧ a.argv[a.argc]? = some Cell.null

/-- The internal invariant that holds between appends (the sentinel is only
rewritten after the append loop). -/
def argvCore (a : ARGV) : Prop :=
  a.argc < a.len ∧ a.argv.length = a.len + 1

/-- Modelled from the spec: `flush_clnt.h` is not under `src/`; success
status of the fast-flush service. -/
def FLUSH_STAT_OK : Int := 0

/-- Modelled from the spec: failure status of the fast-flush service. -/
def FLUSH_STAT_FAIL : Int := -1

/-- Modelled from the spec: the observable transport actions of the flush
client helper (`mail_connect`, `vstream_control` with a timeout,
`mail_vprint` of one formatted line, `mail_scan` of one integer token,
`vstream_fclose`). -/
inductive FEvent where
  | connect_attempt
  | set_timeout (t : Int)
  | write_line (line : List Nat)
  | scan_status
  | close_stream
deriving DecidableEq

/-- Modelled from the spec: the environment the flush client runs against —
whether the local IPC connection can be opened, the configured IPC timeout,
whether exactly one integer status token can be read back, and that token. -/
structure FlushEnv where
  connect_ok : Bool
  ipc_timeout : Int
  scan_ok : Bool
  scanned : Int
deriving DecidableEq

/-- `flush_clnt(format, ...)`: connect to the fast flush service (failure
returns `FLUSH_STAT_FAIL` at once), apply the configured timeout, send the
one formatted request line, read back the acceptance status (scan failure
yields `FLUSH_STAT_FAIL`), close the stream and return the status.  `req` is
the formatted request line; the result pairs the status with the trace of
transport actions. -/
def flush_clnt (env : FlushEnv) (req : List Nat) : Int × List FEvent :=
  let tr0 := [FEvent.connect_attempt]
  if env.connect_ok = false then
    (FLUSH_STAT_FAIL, tr0)
  else
    let tr1 := tr0 ++ [FEvent.set_timeout env.ipc_timeout]
    let tr2 := tr1 ++ [FEvent.write_line req]
    let tr3 := tr2 ++ [FEvent.scan_status]
    let status := if env.scan_ok = true then env.scanned else FLUSH_STAT_FAIL
    let tr4 := tr3 ++ [FEvent.close_stream]
    (status, tr4)

/-- The wire-relevant part of an encoder result: the stream and the status,
with the diagnostic log discarded. -/
def wireResult (r : Except String (VStream × List LogEntry × Int)) :
    Except String (VStream × Int) :=
  match r with
  | Except.error m => Except.error m
  | Except.ok (fp, _, st) => Except.ok (fp, st)

/-- A list without a NUL byte is its own C string. -/
theorem cstr_of_no_nul (s : List Nat) (h : ¬ 0 ∈ s) : cstr s = s := by
  induction s with
  | nil => rfl
  | cons a t ih =>
    rw [List.mem_cons] at h
    push_neg at h
    have ha : a ≠ 0 := fun hc => h.1 (hc ▸ rfl)
    have ht := ih h.2
    simp [cstr, List.takeWhile_cons, ha]
    simpa [cstr] using ht

/-- Taking `strlen` bytes of a byte string yields exactly its C-string part. -/
theorem take_strlen (s : List Nat) : s.take (strlen s) = cstr s := by
  induction s with
  | nil => rfl
  | cons a t ih =>
    by_cases ha : a = 0
    · simp [strlen, cstr, List.takeWhile_cons, ha]
    · simpa [strlen, cstr, List.takeWhile_cons, ha] using ih

/-- The hash loop writes `hashWire` of the table and logs each entry when
verbose. -/
theorem printHashEntries_eq (verbose : Bool) (t : List (List Nat × List Nat)) :
    ∀ fp : VStream,
    printHashEntries verbose fp t
      = ({ fp with written := fp.written ++ hashWire t },
         if verbose then t.map (fun p => LogEntry.hash p.1 p.2) else []) := by
  induction t with
  | nil => intro fp; cases verbose <;> simp [printHashEntries, hashWire]
  | cons kv rest ih =>
    intro fp
    obtain ⟨k, v⟩ := kv
    by_cases hr : rest = []
    · subst hr
      cases verbose <;>
        simp [printHashEntries, hashWire, attr_print_str, vstream_fputs,
          vstream_putc, take_strlen, List.append_assoc]
    · cases verbose <;>
        simp [printHashEntries, hashWire, hr, attr_print_str, vstream_fputs,
          vstream_putc, take_strlen, ih, List.append_assoc]

/-- On a list of recognized entries the attribute loop succeeds, appends
exactly the wire denotation of the list to the stream, leaves the error flag
alone, and produces the verbosity-gated log. -/
theorem attr_vprint_loop_ok (verbose : Bool) (ops : List AttrOp) :
    ∀ fp : VStream, opsKnown ops = true →
    attr_vprint_loop verbose fp ops
      = Except.ok ({ fp with written := fp.written ++ wireList ops },
          logList verbose ops) := by
  induction ops with
  | nil => intro fp _; simp [attr_vprint_loop, wireList, logList]
  | cons op rest ih =>
    intro fp h
    rw [opsKnown, List.all_cons, Bool.and_eq_true] at h
    have hrest : opsKnown rest = true := h.2
    cases op with
    | Num name v =>
      simp [attr_vprint_loop, ih _ hrest, attr_print_str, attr_print_num,
        vstream_putc, vstream_fputs, wireList, logList, entryWire, entryLog,
        take_strlen, List.take_length, List.append_assoc]
    | Str name v =>
      simp [attr_vprint_loop, ih _ hrest, attr_print_str,
        vstream_putc, vstream_fputs, wireList, logList, entryWire, entryLog,
        take_strlen, List.append_assoc]
    | Hash t =>
      simp [attr_vprint_loop, printHashEntries_eq, ih _ hrest,
        vstream_putc, wireList, logList, entryWire, entryLog,
        List.append_assoc]
    | Other c =>
      simp [AttrOp.isKnown] at h

/-- Reaching an unrecognized type code aborts the loop with the panic message,
however many recognized entries precede it. -/
theorem attr_vprint_loop_unknown (verbose : Bool) (pre : List AttrOp) :
    ∀ fp : VStream, opsKnown pre = true → ∀ (c : Int) (post : List AttrOp),
    attr_vprint_loop verbose fp (pre ++ AttrOp.Other c :: post)
      = Except.error "attr_print: unknown type code" := by
  induction pre with
  | nil => intro fp _ c post; simp [attr_vprint_loop]
  | cons op rest ih =>
    intro fp h c post
    rw [opsKnown, List.all_cons, Bool.and_eq_true] at h
    have hrest : opsKnown rest = true := h.2
    cases op with
    | Num name v => simp [attr_vprint_loop, ih _ hrest]
    | Str name v => simp [attr_vprint_loop, ih _ hrest]
    | Hash t => simp [attr_vprint_loop, ih _ hrest]
    | Other c0 => simp [AttrOp.isKnown] at h

/-- Wire denotation distributes over list append. -/
theorem wireList_append (xs ys : List AttrOp) :
    wireList (xs ++ ys) = wireList xs ++ wireList ys := by
  induction xs with
  | nil => simp [wireList]
  | cons op rest ih => simp [wireList, ih, List.append_assoc]

/-- Log denotation distributes over list append. -/
theorem logList_append (verbose : Bool) (xs ys : List AttrOp) :
    logList verbose (xs ++ ys) = logList verbose xs ++ logList verbose ys := by
  induction xs with
  | nil => simp [logList]
  | cons op rest ih => simp [logList, ih, List.append_assoc]

/-- Tag recognition distributes over list append. -/
theorem opsKnown_append (xs ys : List AttrOp) :
    opsKnown (xs ++ ys) = (opsKnown xs && opsKnown ys) := by
  simp [opsKnown, List.all_append]

/-- A nonempty table's wire bytes, with the closing newline, coincide with the
wire denotation of the corresponding scalar-string entries. -/
theorem hashWire_map_str (t : List (List Nat × List Nat)) (h : t ≠ []) :
    hashWire t ++ [10] = wireList (t.map (fun p => AttrOp.Str p.1 p.2)) := by
  induction t with
  | nil => cases h rfl
  | cons kv rest ih =>
    obtain ⟨k, v⟩ := kv
    by_cases hr : rest = []
    · subst hr; simp [hashWire, wireList, entryWire]
    · simp [hashWire, wireList, entryWire, hr, ← ih hr, List.append_assoc]

/-- With enough fuel, the decimal core renders a nonempty string of decimal
digits that folds back to the rendered number. -/
theorem decimalAsciiCore_spec : ∀ (fuel n : Nat), n < fuel →
    decimalAsciiCore n fuel ≠ []
    ∧ (∀ c ∈ decimalAsciiCore n fuel, 48 ≤ c ∧ c ≤ 57)
    ∧ (decimalAsciiCore n fuel).foldl (fun a c => 10 * a + (c - 48)) 0 = n := by
  intro fuel
  induction fuel with
  | zero => intro n hn; omega
  | succ fuel ih =>
    intro n hn
    by_cases h10 : n < 10
    · refine ⟨by simp [decimalAsciiCore, h10], ?_, ?_⟩
      · intro c hc
        simp [decimalAsciiCore, h10] at hc
        omega
      · simp [decimalAsciiCore, h10]
    · have hdiv : n / 10 < n := Nat.div_lt_self (by omega) (by omega)
      have hfuel : n / 10 < fuel := by omega
      obtain ⟨hne, hrange, hfold⟩ := ih (n / 10) hfuel
      refine ⟨by simp [decimalAsciiCore, h10], ?_, ?_⟩
      · intro c hc
        simp [decimalAsciiCore, h10] at hc
        rcases hc with hc | hc
        · exact hrange c hc
        · omega
      · rw [decimalAsciiCore]
        simp only [h10, if_false]
        rw [List.foldl_append, hfold]
        simp
        omega

/-- With enough fuel, a nonzero number's rendering does not start with the
zero digit. -/
theorem decimalAsciiCore_head : ∀ (fuel n : Nat), n < fuel → n ≠ 0 →
    (decimalAsciiCore n fuel).head? ≠ some 48 := by
  intro fuel
  induction fuel with
  | zero => intro n hn; omega
  | succ fuel ih =>
    intro n hn hz
    by_cases h10 : n < 10
    · simp [decimalAsciiCore, h10]
      omega
    · have hdiv : n / 10 < n := Nat.div_lt_self (by omega) (by omega)
      have hfuel : n / 10 < fuel := by omega
      have hz10 : n / 10 ≠ 0 := by
        intro hc
        have := Nat.div_add_mod n 10
        omega
      have hhd := ih (n / 10) hfuel hz10
      have hne := (decimalAsciiCore_spec fuel (n / 10) hfuel).1
      rw [decimalAsciiCore]
      simp only [h10, if_false]
      cases hcore : decimalAsciiCore (n / 10) fuel with
      | nil => exact absurd hcore hne
      | cons x xs =>
        rw [hcore] at hhd
        simpa using hhd

/-- The decimal rendering is a nonempty digit string folding back to its
number. -/
theorem decimalAscii_spec (n : Nat) :
    decimalAscii n ≠ []
    ∧ (∀ c ∈ decimalAscii n, 48 ≤ c ∧ c ≤ 57)
    ∧ (decimalAscii n).foldl (fun a c => 10 * a + (c - 48)) 0 = n :=
  decimalAsciiCore_spec (n + 1) n (Nat.lt_succ_self n)

/-- A nonzero number's decimal rendering has no leading zero digit. -/
theorem decimalAscii_head (n : Nat) (hz : n ≠ 0) :
    (decimalAscii n).head? ≠ some 48 :=
  decimalAsciiCore_head (n + 1) n (Nat.lt_succ_self n) hz

/-- Zero renders as the single digit `"0"`. -/
theorem decimalAscii_zero : decimalAscii 0 = [48] := by decide

/-- `argv_extend` preserves the inter-append invariant, the used count and the
stored slots, and doubles the capacity. -/
theorem argv_extend_spec (a : ARGV) (h : argvCore a) :
    argvCore (argv_extend a)
    ∧ (argv_extend a).argc = a.argc
    ∧ (argv_extend a).len = a.len * 2
    ∧ ∀ i, i < a.argv.length → (argv_extend a).argv[i]? = a.argv[i]? := by
  obtain ⟨hlt, hlen⟩ := h
  refine ⟨⟨by simp [argv_extend]; omega, ?_⟩, rfl, rfl, ?_⟩
  · simp [argv_extend, List.length_append, List.length_replicate, hlen]
    omega
  · intro i hi
    simp [argv_extend, List.getElem?_append_left hi]

/-- One step of the `argv_add` loop: the inter-append invariant is preserved,
the used count grows by one, slots below the old used count are untouched, the
new slot holds a copy of the argument, and the capacity is the old capacity
doubled zero or more times. -/
theorem argv_add_one_spec (a : ARGV) (x : List Nat) (h : argvCore a) :
    argvCore (argv_add_one a x)
    ∧ (argv_add_one a x).argc = a.argc + 1
    ∧ (∀ i, i < a.argc → (argv_add_one a x).argv[i]? = a.argv[i]?)
    ∧ (argv_add_one a x).argv[a.argc]? = some (Cell.str (mystrdup x))
    ∧ (∃ k, (argv_add_one a x).len = a.len * 2 ^ k) := by
  obtain ⟨hlt, hlen⟩ := h
  by_cases hsp : (a.len : Int) - a.argc - 1 ≤ 0
  · obtain ⟨⟨hlt2, hlen2⟩, hargc2, hlen2eq, hget2⟩ := argv_extend_spec a ⟨hlt, hlen⟩
    simp only [argv_add_one, if_pos hsp]
    refine ⟨⟨?_, ?_⟩, ?_, ?_, ?_, ?_⟩
    · simp only [List.length_set]
      rw [hargc2, hlen2eq]
      omega
    · simp only [List.length_set]
      exact hlen2
    · rw [hargc2]
    · intro i hi
      rw [hargc2, List.getElem?_set_ne (by omega : a.argc ≠ i)]
      exact hget2 i (by omega)
    · rw [hargc2, List.getElem?_set_eq_of_lt _ (by rw [hlen2, hlen2eq]; omega)]
    · exact ⟨1, by rw [hlen2eq, pow_one]⟩
  · simp only [argv_add_one, if_neg hsp]
    refine ⟨⟨?_, ?_⟩, ?_, ?_, ?_, ?_⟩
    · simp only [List.length_set]
      omega
    · simp only [List.length_set]
      exact hlen
    · trivial
    · intro i hi
      rw [List.getElem?_set_ne (by omega : a.argc ≠ i)]
    · rw [List.getElem?_set_eq_of_lt _ (by rw [hlen]; omega)]
    · exact ⟨0, by simp⟩

/-- The full `argv_add` loop: contents below the old used count survive, the
appended strings land in order at the following slots, and the capacity is
doubled as often as needed. -/
theorem argv_fold_spec (args : List (List Nat)) : ∀ a : ARGV, argvCore a →
    argvCore (args.foldl argv_add_one a)
    ∧ (args.foldl argv_add_one a).argc = a.argc + args.length
    ∧ (∀ i, i < a.argc → (args.foldl argv_add_one a).argv[i]? = a.argv[i]?)
    ∧ (∀ (j : Nat) (hj : j < args.length),
        (args.foldl argv_add_one a).argv[a.argc + j]?
          = some (Cell.str (mystrdup (args.get ⟨j, hj⟩))))
    ∧ (∃ k, (args.foldl argv_add_one a).len = a.len * 2 ^ k) := by
  induction args with
  | nil =>
    intro a h
    exact ⟨h, by simp, fun i _ => rfl, fun j hj => absurd hj (by simp), ⟨0, by simp⟩⟩
  | cons x rest ih =>
    intro a h
    obtain ⟨hb, hbargc, hbbelow, hbat, k1, hblen⟩ := argv_add_one_spec a x h
    obtain ⟨hf, hfargc, hfbelow, hfat, k2, hflen⟩ := ih (argv_add_one a x) hb
    have hbelow2 : ∀ i, i < a.argc →
        ((x :: rest).foldl argv_add_one a).argv[i]? = a.argv[i]? := by
      intro i hi
      have : i < (argv_add_one a x).argc := by omega
      rw [List.foldl_cons, hfbelow i this, hbbelow i hi]
    refine ⟨hf, ?_, hbelow2, ?_, ?_⟩
    · rw [List.foldl_cons, hfargc, hbargc, List.length_cons]
      omega
    · intro j hj
      cases j with
      | zero =>
        have hlt : a.argc < (argv_add_one a x).argc := by omega
        rw [List.foldl_cons, Nat.add_zero, hfbelow a.argc hlt, hbat]
        rfl
      | succ j0 =>
        have hj0 : j0 < rest.length := by
          rw [List.length_cons] at hj
          omega
        have harith : a.argc + (j0 + 1) = (argv_add_one a x).argc + j0 := by
          omega
        rw [List.foldl_cons, harith, hfat j0 hj0]
        rfl
    · refine ⟨k1 + k2, ?_⟩
      rw [List.foldl_cons, hflen, hblen, pow_add, mul_assoc]

/-- Full characterization of a successful `attr_vprint` call: the wire bytes
of all entries are appended, the terminator is appended unless MORE is set,
the error flag is untouched, and the returned status is the stream's error
status. -/
theorem attr_vprint_ok (verbose : Bool) (fp : VStream) (flags : Nat)
    (ops : List AttrOp) (hflags : flags &&& ATTR_FLAG_ALL = flags)
    (hops : opsKnown ops = true) :
    attr_vprint verbose fp flags ops
      = Except.ok ({ fp with written := fp.written ++ wireList ops
            ++ (if flags &&& ATTR_FLAG_MORE = 0 then [10] else []) },
          logList verbose ops,
          vstream_ferror fp) := by
  rw [attr_vprint, if_neg (by omega), attr_vprint_loop_ok verbose ops fp hops]
  by_cases hm : flags &&& ATTR_FLAG_MORE = 0 <;>
    simp [hm, vstream_putc, vstream_ferror, List.append_assoc]

/-- The write trace and the success-or-panic outcome of the attribute loop do
not depend on the verbosity setting; only the diagnostic log does. -/
theorem loop_verbose_indep (fp : VStream) (ops : List AttrOp) :
    (∃ m, attr_vprint_loop true fp ops = Except.error m
        ∧ attr_vprint_loop false fp ops = Except.error m)
    ∨ (∃ fp1 l1 l2, attr_vprint_loop true fp ops = Except.ok (fp1, l1)
        ∧ attr_vprint_loop false fp ops = Except.ok (fp1, l2)) := by
  induction ops generalizing fp with
  | nil => exact Or.inr ⟨fp, [], [], rfl, rfl⟩
  | cons op rest ih =>
    cases op with
    | Num name v =>
      rcases ih (vstream_putc 10 (attr_print_num (vstream_putc 58
          (attr_print_str fp name (strlen name))) v)) with ⟨m, h1, h2⟩ | ⟨fp1, l1, l2, h1, h2⟩
      · exact Or.inl ⟨m, by simp [attr_vprint_loop, h1], by simp [attr_vprint_loop, h2]⟩
      · exact Or.inr ⟨fp1, LogEntry.num name v :: l1, l2,
          by simp [attr_vprint_loop, h1], by simp [attr_vprint_loop, h2]⟩
    | Str name v =>
      rcases ih (vstream_putc 10 (attr_print_str (vstream_putc 58
          (attr_print_str fp name (strlen name))) v (strlen v))) with
        ⟨m, h1, h2⟩ | ⟨fp1, l1, l2, h1, h2⟩
      · exact Or.inl ⟨m, by simp [attr_vprint_loop, h1], by simp [attr_vprint_loop, h2]⟩
      · exact Or.inr ⟨fp1, LogEntry.str name v :: l1, l2,
          by simp [attr_vprint_loop, h1], by simp [attr_vprint_loop, h2]⟩
    | Hash t =>
      rcases ih (vstream_putc 10 { fp with written := fp.written ++ hashWire t }) with
        ⟨m, h1, h2⟩ | ⟨fp1, l1, l2, h1, h2⟩
      · exact Or.inl ⟨m, by simp [attr_vprint_loop, printHashEntries_eq, h1],
          by simp [attr_vprint_loop, printHashEntries_eq, h2]⟩
      · exact Or.inr ⟨fp1, List.map (fun p => LogEntry.hash p.1 p.2) t ++ l1, l2,
          by simp [attr_vprint_loop, printHashEntries_eq, h1],
          by simp [attr_vprint_loop, printHashEntries_eq, h2]⟩
    | Other c =>
      exact Or.inl ⟨"attr_print: unknown type code", rfl, rfl⟩

/-- A negative length anywhere in the pair list makes the `argv_addn` loop
abort with the panic. -/
theorem argv_addn_fold_error (pairs : List (List Nat × Int)) :
    ∀ (a : ARGV) (p : List Nat × Int), p ∈ pairs → p.2 < 0 →
    ∃ m, pairs.foldlM (fun acc q => argv_addn_one acc q.1 q.2) a = Except.error m := by
  induction pairs with
  | nil => intro a p hp; cases hp
  | cons q rest ih =>
    intro a p hp hneg
    rw [List.mem_cons] at hp
    rcases hres : argv_addn_one a q.1 q.2 with m2 | a2
    · exact ⟨m2, by simp [List.foldlM_cons, hres, Bind.bind, Except.bind]⟩
    · have hq : ¬ q.2 < 0 := by
        intro hc
        simp [argv_addn_one, hc] at hres
      have hpr : p ∈ rest := by
        rcases hp with hpq | hpr
        · exact absurd (hpq ▸ hneg) hq
        · exact hpr
      obtain ⟨m, hm⟩ := ih a2 p hpr hneg
      exact ⟨m, by simp [List.foldlM_cons, hres, hm, Bind.bind, Except.bind]⟩

/-- C1 (amended): for every Str(name, value) entry passed to the attribute
encoder, the bytes written for that entry are exactly
base64(name) ++ ':' ++ base64(value) ++ '\n', for every byte-string value
free of NUL bytes — newlines, colons and other control bytes included.  (The
value is read as a NUL-terminated C string, so bytes at and after a first
NUL byte are not transmitted; see the counterexample.) -/
theorem str_entry_wire_format (verbose : Bool) (fp : VStream) (flags : Nat)
    (pre post : List AttrOp) (name value : List Nat)
    (hflags : flags &&& ATTR_FLAG_ALL = flags)
    (hpre : opsKnown pre = true) (hpost : opsKnown post = true)
    (hname : ¬ 0 ∈ name) (hvalue : ¬ 0 ∈ value) :
    attr_vprint verbose fp flags (pre ++ AttrOp.Str name value :: post)
      = Except.ok (VStream.mk (fp.written ++ wireList pre
            ++ (base64_encode name ++ 58 :: base64_encode value ++ [10])
            ++ wireList post
            ++ (if flags &&& ATTR_FLAG_MORE = 0 then [10] else [])) fp.error,
          logList verbose (pre ++ AttrOp.Str name value :: post),
          vstream_ferror fp) := by
  have hops : opsKnown (pre ++ AttrOp.Str name value :: post) = true := by
    rw [opsKnown_append, hpre, Bool.true_and, opsKnown, List.all_cons]
    exact (Bool.and_eq_true _ _).mpr ⟨rfl, hpost⟩
  rw [attr_vprint_ok verbose fp flags _ hflags hops, wireList_append]
  simp [wireList, entryWire, cstr_of_no_nul name hname, cstr_of_no_nul value hvalue,
    List.append_assoc]

/-- C1 witness: the amended claim instantiated at a concrete entry. -/
theorem str_entry_wire_format_witness :
    attr_vprint false { written := [], error := false } 0
        ([] ++ AttrOp.Str [110] [119] :: [])
      = Except.ok (VStream.mk ([]
            ++ wireList []
            ++ (base64_encode [110] ++ 58 :: base64_encode [119] ++ [10])
            ++ wireList []
            ++ (if 0 &&& ATTR_FLAG_MORE = 0 then [10] else [])) false,
          logList false ([] ++ AttrOp.Str [110] [119] :: []),
          vstream_ferror { written := [], error := false }) :=
  str_entry_wire_format false { written := [], error := false } 0 [] [] [110] [119]
    (by decide) (by decide) (by decide) (by decide) (by decide)

/-- C1 counterexample: for the value [97, 0, 98], which contains a NUL byte,
the encoder writes base64 of [97] (the part before the NUL), not base64 of
the full value, and the two byte sequences differ; so the claim is false for
values containing NUL bytes. -/
theorem str_entry_nul_counterexample :
    attr_vprint false { written := [], error := false } 0
        [AttrOp.Str [110] [97, 0, 98]]
      = Except.ok ({ written := base64_encode [110] ++ 58 :: base64_encode [97]
            ++ [10, 10], error := false }, [], 0)
    ∧ base64_encode [110] ++ 58 :: base64_encode [97] ++ [10, 10]
      ≠ base64_encode [110] ++ 58 :: base64_encode [97, 0, 98] ++ [10, 10] := by
  decide

/-- C2: for every Num(name, n) entry with unsigned integer n, the encoder
writes exactly base64(name) ++ ':' ++ base64(d) ++ '\n', where d is the
unsigned decimal ASCII digit string of n — nonempty, all decimal digits,
folding back to n, with no sign and no leading zero (d starts with the zero
digit only for n = 0, where d = "0") — never the raw binary value. -/
theorem num_entry_wire_format (verbose : Bool) (fp : VStream) (flags : Nat)
    (pre post : List AttrOp) (name : List Nat) (n : Nat)
    (hflags : flags &&& ATTR_FLAG_ALL = flags)
    (hpre : opsKnown pre = true) (hpost : opsKnown post = true)
    (hname : ¬ 0 ∈ name) :
    (attr_vprint verbose fp flags (pre ++ AttrOp.Num name n :: post)
      = Except.ok (VStream.mk (fp.written ++ wireList pre
            ++ (base64_encode name ++ 58 :: base64_encode (decimalAscii n) ++ [10])
            ++ wireList post
            ++ (if flags &&& ATTR_FLAG_MORE = 0 then [10] else [])) fp.error,
          logList verbose (pre ++ AttrOp.Num name n :: post),
          vstream_ferror fp))
    ∧ decimalAscii n ≠ []
    ∧ (∀ c ∈ decimalAscii n, 48 ≤ c ∧ c ≤ 57)
    ∧ (decimalAscii n).foldl (fun a c => 10 * a + (c - 48)) 0 = n
    ∧ (n ≠ 0 → (decimalAscii n).head? ≠ some 48)
    ∧ (n = 0 → decimalAscii n = [48]) := by
  obtain ⟨hne, hrange, hfold⟩ := decimalAscii_spec n
  refine ⟨?_, hne, hrange, hfold, decimalAscii_head n, fun hz => hz ▸ decimalAscii_zero⟩
  have hops : opsKnown (pre ++ AttrOp.Num name n :: post) = true := by
    rw [opsKnown_append, hpre, Bool.true_and, opsKnown, List.all_cons]
    exact (Bool.and_eq_true _ _).mpr ⟨rfl, hpost⟩
  rw [attr_vprint_ok verbose fp flags _ hflags hops, wireList_append]
  simp [wireList, entryWire, cstr_of_no_nul name hname, List.append_assoc]

/-- C2 witness: the claim instantiated at a concrete Num entry. -/
theorem num_entry_wire_format_witness :
    (attr_vprint false { written := [], error := false } 0
        ([] ++ AttrOp.Num [115] 4711 :: [])
      = Except.ok (VStream.mk ([]
            ++ wireList []
            ++ (base64_encode [115] ++ 58 :: base64_encode (decimalAscii 4711) ++ [10])
            ++ wireList []
            ++ (if 0 &&& ATTR_FLAG_MORE = 0 then [10] else [])) false,
          logList false ([] ++ AttrOp.Num [115] 4711 :: []),
          vstream_ferror { written := [], error := false }))
    ∧ decimalAscii 4711 ≠ []
    ∧ (∀ c ∈ decimalAscii 4711, 48 ≤ c ∧ c ≤ 57)
    ∧ (decimalAscii 4711).foldl (fun a c => 10 * a + (c - 48)) 0 = 4711
    ∧ (4711 ≠ 0 → (decimalAscii 4711).head? ≠ some 48)
    ∧ (4711 = 0 → decimalAscii 4711 = [48]) :=
  num_entry_wire_format false { written := [], error := false } 0 [] [] [115] 4711
    (by decide) (by decide) (by decide) (by decide)

/-- C3 (amended): for every nonempty table t, the bytes the encoder writes
for a single Table(t) entry equal the bytes it writes for the sequence of
Str(key, value) entries in t's iteration order, and the returned status is
the same; a table is then indistinguishable on the wire from the same
scalar-string attributes.  (For the empty table the code writes one stray
newline where the scalar sequence writes nothing; see the counterexample.) -/
theorem table_entry_scalar_equivalence (verbose : Bool) (fp : VStream) (flags : Nat)
    (t : List (List Nat × List Nat)) (ht : t ≠ [])
    (hflags : flags &&& ATTR_FLAG_ALL = flags) :
    ∃ fp2 lg1 lg2 st,
      attr_vprint verbose fp flags [AttrOp.Hash t] = Except.ok (fp2, lg1, st)
      ∧ attr_vprint verbose fp flags (t.map (fun p => AttrOp.Str p.1 p.2))
          = Except.ok (fp2, lg2, st) := by
  have hops1 : opsKnown [AttrOp.Hash t] = true := by
    simp [opsKnown, AttrOp.isKnown]
  have hops2 : opsKnown (t.map (fun p => AttrOp.Str p.1 p.2)) = true := by
    rw [opsKnown, List.all_eq_true]
    intro x hx
    rw [List.mem_map] at hx
    obtain ⟨p, hpmem, hpe⟩ := hx
    rw [← hpe]
    rfl
  have hw : wireList [AttrOp.Hash t] = wireList (t.map (fun p => AttrOp.Str p.1 p.2)) := by
    rw [← hashWire_map_str t ht]
    simp [wireList, entryWire]
  rw [attr_vprint_ok verbose fp flags _ hflags hops1,
    attr_vprint_ok verbose fp flags _ hflags hops2, hw]
  exact ⟨_, _, _, _, rfl, rfl⟩

/-- C3 witness: the amended claim instantiated at a concrete one-entry
table. -/
theorem table_entry_scalar_equivalence_witness :
    ∃ fp2 lg1 lg2 st,
      attr_vprint false { written := [], error := false } 0
          [AttrOp.Hash [([102], [49])]] = Except.ok (fp2, lg1, st)
      ∧ attr_vprint false { written := [], error := false } 0
          ([([102], [49])].map (fun p => AttrOp.Str p.1 p.2))
          = Except.ok (fp2, lg2, st) :=
  table_entry_scalar_equivalence false { written := [], error := false } 0
    [([102], [49])] (by decide) (by decide)

/-- C3 counterexample: for the empty table the encoder writes two newline
bytes (a stray blank line plus the record terminator) while the
corresponding empty sequence of Str entries produces only the terminator;
the wire bytes differ, refuting the claim for every table. -/
theorem table_empty_counterexample :
    attr_vprint false { written := [], error := false } 0 [AttrOp.Hash []]
      = Except.ok ({ written := [10, 10], error := false }, [], 0)
    ∧ attr_vprint false { written := [], error := false } 0
        (([] : List (List Nat × List Nat)).map (fun p => AttrOp.Str p.1 p.2))
      = Except.ok ({ written := [10], error := false }, [], 0)
    ∧ ([10, 10] : List Nat) ≠ [10] := by
  decide

/-- C4: for every attribute list and stream, with MORE set the encoder
writes the per-attribute lines and nothing after them, and with MORE unset
it appends exactly one additional blank line after the last attribute line;
everything else (bytes, log, status) is identical. -/
theorem more_flag_terminator (verbose : Bool) (fp : VStream) (ops : List AttrOp)
    (hops : opsKnown ops = true) :
    ∃ out lg,
      attr_vprint verbose fp ATTR_FLAG_MORE ops
        = Except.ok ({ fp with written := fp.written ++ out }, lg, vstream_ferror fp)
      ∧ attr_vprint verbose fp ATTR_FLAG_NONE ops
        = Except.ok ({ fp with written := fp.written ++ (out ++ [10]) }, lg,
            vstream_ferror fp) := by
  refine ⟨wireList ops, logList verbose ops, ?_, ?_⟩
  · rw [attr_vprint_ok verbose fp ATTR_FLAG_MORE ops (by decide) hops,
      if_neg (show ¬ATTR_FLAG_MORE &&& ATTR_FLAG_MORE = 0 by decide)]
    simp
  · rw [attr_vprint_ok verbose fp ATTR_FLAG_NONE ops (by decide) hops,
      if_pos (show ATTR_FLAG_NONE &&& ATTR_FLAG_MORE = 0 by decide)]
    simp [List.append_assoc]

/-- C4 witness: the claim instantiated at a concrete list and stream. -/
theorem more_flag_terminator_witness :
    ∃ out lg,
      attr_vprint false { written := [], error := false } ATTR_FLAG_MORE
          [AttrOp.Str [110] [119]]
        = Except.ok ({ written := [] ++ out, error := false }, lg, 0)
      ∧ attr_vprint false { written := [], error := false } ATTR_FLAG_NONE
          [AttrOp.Str [110] [119]]
        = Except.ok ({ written := [] ++ (out ++ [10]), error := false }, lg, 0) :=
  more_flag_terminator false { written := [], error := false }
    [AttrOp.Str [110] [119]] (by decide)

/-- C5: contract violations are fatal, not recoverable: undefined flag bits
and unrecognized attribute type tags abort `attr_vprint` (panic rather than a
status return), and a negative string length aborts `argv_addn`. -/
theorem contract_violation_aborts :
    (∀ (verbose : Bool) (fp : VStream) (flags : Nat) (ops : List AttrOp),
        flags &&& ATTR_FLAG_ALL ≠ flags →
        attr_vprint verbose fp flags ops = Except.error "attr_print: bad flags")
  ∧ (∀ (verbose : Bool) (fp : VStream) (flags : Nat) (pre : List AttrOp) (c : Int)
        (post : List AttrOp), flags &&& ATTR_FLAG_ALL = flags → opsKnown pre = true →
        attr_vprint verbose fp flags (pre ++ AttrOp.Other c :: post)
          = Except.error "attr_print: unknown type code")
  ∧ (∀ (a : ARGV) (pairs : List (List Nat × Int)) (q : List Nat × Int),
        q ∈ pairs → q.2 < 0 → ∃ m, argv_addn a pairs = Except.error m) := by
  refine ⟨?_, ?_, ?_⟩
  · intro verbose fp flags ops h
    rw [attr_vprint, if_pos h]
  · intro verbose fp flags pre c post hf hpre
    rw [attr_vprint, if_neg (by omega),
      attr_vprint_loop_unknown verbose pre fp hpre c post]
  · intro a pairs q hq hneg
    obtain ⟨m, hm⟩ := argv_addn_fold_error pairs a q hq hneg
    exact ⟨m, by simp [argv_addn, hm]⟩

/-- C5 witness: each contract violation at a concrete input. -/
theorem contract_violation_aborts_witness :
    attr_vprint false { written := [], error := false } 2 []
        = Except.error "attr_print: bad flags"
    ∧ attr_vprint false { written := [], error := false } 0
        ([] ++ AttrOp.Other 7 :: [])
        = Except.error "attr_print: unknown type code"
    ∧ (∃ m, argv_addn (argv_alloc 2) [([104], -1)] = Except.error m) :=
  ⟨contract_violation_aborts.1 false { written := [], error := false } 2 [] (by decide),
   contract_violation_aborts.2.1 false { written := [], error := false } 0 [] 7 []
     (by decide) (by decide),
   contract_violation_aborts.2.2 (argv_alloc 2) [([104], -1)] ([104], -1)
     (by decide) (by decide)⟩

/-- C6: with valid flags and recognized type tags every entry is attempted —
the full wire bytes are appended even when the stream is already in error —
and the single status computed at the end is 0 when the stream has no write
error and the I/O-failure sentinel otherwise. -/
theorem encoder_status_after_all_entries (verbose : Bool) (fp : VStream)
    (flags : Nat) (ops : List AttrOp)
    (hflags : flags &&& ATTR_FLAG_ALL = flags) (hops : opsKnown ops = true) :
    attr_vprint verbose fp flags ops
      = Except.ok (VStream.mk (fp.written ++ wireList ops
            ++ (if flags &&& ATTR_FLAG_MORE = 0 then [10] else [])) fp.error,
          logList verbose ops,
          if fp.error = true then VSTREAM_EOF else 0) := by
  rw [attr_vprint_ok verbose fp flags ops hflags hops]
  rfl

/-- C6 witness: the claim instantiated on a stream already in error: all
bytes are still attempted and the status is the I/O-failure sentinel. -/
theorem encoder_status_after_all_entries_witness :
    attr_vprint false { written := [], error := true } 0 [AttrOp.Str [110] [119]]
      = Except.ok (VStream.mk (([] : List Nat) ++ wireList [AttrOp.Str [110] [119]]
            ++ (if 0 &&& ATTR_FLAG_MORE = 0 then [10] else [])) true,
          logList false [AttrOp.Str [110] [119]],
          if true = true then VSTREAM_EOF else 0) :=
  encoder_status_after_all_entries false { written := [], error := true } 0
    [AttrOp.Str [110] [119]] (by decide) (by decide)

/-- C7: the growable string array satisfies, after creation and after every
append, argc < len with the null sentinel at index argc; each appended
string is copied into the array in order with earlier slots untouched, and
the capacity grows only by doubling. -/
theorem argv_invariant_preservation :
    (∀ n : Nat, argvInv (argv_alloc n))
  ∧ (∀ (a : ARGV) (args : List (List Nat)), argvInv a →
      argvInv (argv_add a args)
      ∧ (argv_add a args).argc = a.argc + args.length
      ∧ (∀ i, i < a.argc → (argv_add a args).argv[i]? = a.argv[i]?)
      ∧ (∀ (j : Nat) (hj : j < args.length),
          (argv_add a args).argv[a.argc + j]?
            = some (Cell.str (mystrdup (args.get ⟨j, hj⟩))))
      ∧ (∃ k, (argv_add a args).len = a.len * 2 ^ k)) := by
  constructor
  · intro n
    by_cases h2 : n < 2
    · simp [argv_alloc, argvInv, h2, List.length_replicate]
    · simp [argv_alloc, argvInv, h2, List.length_replicate]
      omega
  · intro a args hInv
    obtain ⟨hlt, hlen, hnull⟩ := hInv
    obtain ⟨⟨hflt, hflen⟩, hfargc, hfbelow, hfat, k, hklen⟩ :=
      argv_fold_spec args a ⟨hlt, hlen⟩
    refine ⟨⟨?_, ?_, ?_⟩, ?_, ?_, ?_, ?_⟩
    · simpa [argv_add] using hflt
    · simp [argv_add, List.length_set, hflen]
    · simp only [argv_add]
      rw [List.getElem?_set_eq_of_lt _ (by rw [hflen]; omega)]
    · simp [argv_add, hfargc]
    · intro i hi
      simp only [argv_add]
      rw [List.getElem?_set_ne (by omega : (args.foldl argv_add_one a).argc ≠ i)]
      exact hfbelow i hi
    · intro j hj
      simp only [argv_add]
      rw [List.getElem?_set_ne
        (by omega : (args.foldl argv_add_one a).argc ≠ a.argc + j)]
      exact hfat j hj
    · exact ⟨k, by simpa [argv_add] using hklen⟩

/-- C7 witness: the invariant holds for a fresh array and is preserved by a
concrete append. -/
theorem argv_invariant_preservation_witness :
    argvInv (argv_alloc 1)
    ∧ argvInv (argv_add (argv_alloc 1) [[104, 105]]) :=
  ⟨argv_invariant_preservation.1 1,
   (argv_invariant_preservation.2 (argv_alloc 1) [[104, 105]]
     (argv_invariant_preservation.1 1)).1⟩

/-- C8: the flush-service request helper opens one connection, applies the
configured timeout, writes one formatted request line, reads back exactly
one integer status token (scan failure yields the failure status), closes
the connection and returns the status; when the connection cannot be opened
it returns the failure status without writing anything. -/
theorem flush_clnt_behavior (env : FlushEnv) (req : List Nat) :
    (env.connect_ok = false →
      flush_clnt env req = (FLUSH_STAT_FAIL, [FEvent.connect_attempt])
      ∧ (∀ l, FEvent.write_line l ∉ (flush_clnt env req).2))
  ∧ (env.connect_ok = true →
      flush_clnt env req
        = ((if env.scan_ok = true then env.scanned else FLUSH_STAT_FAIL),
           [FEvent.connect_attempt, FEvent.set_timeout env.ipc_timeout,
            FEvent.write_line req, FEvent.scan_status, FEvent.close_stream])) := by
  constructor
  · intro h
    constructor
    · simp [flush_clnt, h]
    · intro l
      simp [flush_clnt, h]
  · intro h
    simp [flush_clnt, h]

/-- C8 witness: the claim instantiated on a connectable environment. -/
theorem flush_clnt_behavior_witness :
    flush_clnt (⟨true, 100, true, 0⟩ : FlushEnv) [70]
      = ((if true = true then (0 : Int) else FLUSH_STAT_FAIL),
         [FEvent.connect_attempt, FEvent.set_timeout 100,
          FEvent.write_line [70], FEvent.scan_status, FEvent.close_stream]) :=
  (flush_clnt_behavior (⟨true, 100, true, 0⟩ : FlushEnv) [70]).2 (by decide)

/-- C9: on the empty attribute list the encoder writes exactly one newline
byte (the bare record terminator) with no flags set and no bytes at all with
MORE set, and both calls return the stream's unchanged error status. -/
theorem empty_list_wire (verbose : Bool) (fp : VStream) :
    attr_vprint verbose fp ATTR_FLAG_NONE []
      = Except.ok ({ fp with written := fp.written ++ [10] }, [], vstream_ferror fp)
    ∧ attr_vprint verbose fp ATTR_FLAG_MORE []
      = Except.ok (fp, [], vstream_ferror fp) := by
  exact ⟨rfl, rfl⟩

/-- C10: the wire bytes and the returned status of the attribute encoder are
identical whether or not verbose diagnostic logging is enabled; only the
diagnostic log differs. -/
theorem verbosity_independence (fp : VStream) (flags : Nat) (ops : List AttrOp) :
    wireResult (attr_vprint true fp flags ops)
      = wireResult (attr_vprint false fp flags ops) := by
  by_cases hf : flags &&& ATTR_FLAG_ALL ≠ flags
  · rw [attr_vprint, if_pos hf, attr_vprint, if_pos hf]
  · rcases loop_verbose_indep fp ops with ⟨m, h1, h2⟩ | ⟨fp1, l1, l2, h1, h2⟩
    · rw [attr_vprint, if_neg hf, attr_vprint, if_neg hf, h1, h2]
    · rw [attr_vprint, if_neg hf, attr_vprint, if_neg hf, h1, h2]
      rfl
